import Mathlib

/-!
Verification of the sheets proxy server (`src/index.js`, plus the two unnamed
variants `src/unnamed/part_000` and `src/unnamed/part_001`).

The development has three layers:

1. A model of the platform JSON codec (`JSON.parse` / `JSON.stringify`) over
   null, booleans, integer numbers, strings, arrays and objects.  Fractional
   and exponent number literals, `\u`/control-character escapes and unicode
   edge cases are outside the modelled scalar domain; the update endpoint's
   tolerance for stringified value matrices only ever meets matrices of plain
   scalars, so this domain covers the behaviour the spec talks about.
2. A model of the upstream Google Drive/Sheets surface the server calls:
   typed queries, typed responses, and an oracle (`Upstream`) giving each
   call's outcome.  Handlers return the HTTP response together with the list
   of upstream calls they issued, so "no remote call is made" is a statement
   about that trace.
3. One Lean function per route of the server, translated line by line from
   the JavaScript handlers, and the theorems settling the claims.
-/

namespace SheetsProxy

/-- A JSON value: the shape of request bodies, upstream payloads and response
bodies.  Numbers are integers (see the file comment for the modelled domain). -/
inductive Json where
  | null : Json
  | bool (b : Bool) : Json
  | num (n : Int) : Json
  | str (s : String) : Json
  | arr (elems : List Json) : Json
  | obj (fields : List (String × Json)) : Json

/-! ### Rendering (the model of `JSON.stringify`) -/

/-- The decimal digit character for `k` (used with `k < 10`). -/
def digitOf (k : Nat) : Char := Char.ofNat (48 + k)

/-- Decimal digits of `n`, most significant first; `['0']` for zero. -/
def natChars (n : Nat) : List Char :=
  if _h : n < 10 then [digitOf n] else natChars (n / 10) ++ [digitOf (n % 10)]
  termination_by n
  decreasing_by exact Nat.div_lt_self (by omega) (by omega)

/-- Characters of an integer literal: a minus sign for negatives, then digits. -/
def intChars (i : Int) : List Char :=
  if i < 0 then '-' :: natChars i.natAbs else natChars i.toNat

/-- How one character appears inside a rendered JSON string: quote and
backslash are escaped, everything else stands for itself. -/
def escSeq (c : Char) : List Char :=
  if c = '"' ∨ c = '\\' then ['\\', c] else [c]

/-- The rendered body of a string literal: each character escaped, then the
closing quote. -/
def strBodyChars : List Char → List Char
  | [] => ['"']
  | c :: t => escSeq c ++ strBodyChars t

mutual

/-- Characters of the rendered value (the model of `JSON.stringify`). -/
def renderChars : Json → List Char
  | .num n => intChars n
  | .str s => '"' :: strBodyChars s.toList
  | .arr l => '[' :: renderItems l
  | .obj l => '{' :: renderPairs l
  | .null => "null".toList
  | .bool b => if b then "true".toList else "false".toList

/-- Rendered elements of a nonempty-or-empty array, closing bracket included. -/
def renderItems : List Json → List Char
  | [] => [']']
  | [x] => renderChars x ++ [']']
  | x :: y :: ys => renderChars x ++ ',' :: renderItems (y :: ys)

/-- Rendered members of an object, closing brace included. -/
def renderPairs : List (String × Json) → List Char
  | [] => ['\x7d']
  | [(k, v)] => '"' :: strBodyChars k.toList ++ ':' :: renderChars v ++ ['\x7d']
  | (k, v) :: p :: ps =>
      '"' :: strBodyChars k.toList ++ ':' :: renderChars v ++ ',' :: renderPairs (p :: ps)

end

/-- The model of `JSON.stringify`. -/
def Json.render (v : Json) : String := String.mk (renderChars v)

/-! ### Parsing (the model of `JSON.parse`) -/

/-- JSON insignificant whitespace. -/
def isWsChar (c : Char) : Bool := c = ' ' || c = '\n' || c = '\t' || c = '\r'

/-- Drop leading whitespace. -/
def skipWs : List Char → List Char
  | [] => []
  | c :: t => if isWsChar c then skipWs t else c :: t

/-- Split off the maximal leading run of decimal digits. -/
def digitSpan : List Char → List Char × List Char
  | [] => ([], [])
  | c :: t =>
      if c.isDigit then
        let p := digitSpan t
        (c :: p.1, p.2)
      else ([], c :: t)

/-- The number a digit run denotes. -/
def digitsVal (ds : List Char) : Nat :=
  ds.foldl (fun a c => a * 10 + (c.toNat - 48)) 0

/-- A multi-digit literal starting in `0` (rejected by `JSON.parse`). -/
def leadingZero : List Char → Bool
  | [] => false
  | [_] => false
  | c :: _ :: _ => c == '0'

/-- Read an unsigned integer literal: at least one digit, no leading zero. -/
def numToken (cs : List Char) : Option (Nat × List Char) :=
  let p := digitSpan cs
  if p.1 = [] then none
  else if leadingZero p.1 then none
  else some (digitsVal p.1, p.2)

/-- Read a string body after the opening quote, undoing the two escapes. -/
def parseStrBody : List Char → Option (List Char × List Char)
  | [] => none
  | c :: t =>
      if c = '"' then some ([], t)
      else if c = '\\' then
        match t with
        | [] => none
        | e :: t2 =>
            if e = '"' ∨ e = '\\' then
              match parseStrBody t2 with
              | some p => some (e :: p.1, p.2)
              | none => none
            else none
      else
        match parseStrBody t with
        | some p => some (c :: p.1, p.2)
        | none => none

mutual

/-- Read one JSON value.  `fuel` only ensures totality: any `fuel` beyond the
input's length is enough (`parseVal_render`). -/
def parseVal : Nat → List Char → Option (Json × List Char)
  | 0, _ => none
  | fuel + 1, cs =>
      match skipWs cs with
      | [] => none
      | c :: t =>
          if c = 'n' then
            match t with
            | 'u' :: 'l' :: 'l' :: r => some (.null, r)
            | _ => none
          else if c = 't' then
            match t with
            | 'r' :: 'u' :: 'e' :: r => some (.bool true, r)
            | _ => none
          else if c = 'f' then
            match t with
            | 'a' :: 'l' :: 's' :: 'e' :: r => some (.bool false, r)
            | _ => none
          else if c = '"' then
            match parseStrBody t with
            | some p => some (.str (String.mk p.1), p.2)
            | none => none
          else if c = '[' then
            let u := skipWs t
            if u.head? = some ']' then some (.arr [], u.tail)
            else
              match parseItems fuel u with
              | some p => some (.arr p.1, p.2)
              | none => none
          else if c = '\x7b' then
            let u := skipWs t
            if u.head? = some '\x7d' then some (.obj [], u.tail)
            else
              match parsePairs fuel u with
              | some p => some (.obj p.1, p.2)
              | none => none
          else if c = '-' then
            match numToken t with
            | some p => some (.num (-(p.1 : Int)), p.2)
            | none => none
          else if c.isDigit then
            match numToken (c :: t) with
            | some p => some (.num (p.1 : Int), p.2)
            | none => none
          else none

/-- Read the elements of a nonempty array up to and past its `]`. -/
def parseItems : Nat → List Char → Option (List Json × List Char)
  | 0, _ => none
  | fuel + 1, cs =>
      match parseVal fuel cs with
      | none => none
      | some p =>
          let u := skipWs p.2
          if u.head? = some ',' then
            match parseItems fuel u.tail with
            | some q => some (p.1 :: q.1, q.2)
            | none => none
          else if u.head? = some ']' then some ([p.1], u.tail)
          else none

/-- Read the members of a nonempty object up to and past its closing brace. -/
def parsePairs : Nat → List Char → Option (List (String × Json) × List Char)
  | 0, _ => none
  | fuel + 1, cs =>
      let u := skipWs cs
      if u.head? = some '"' then
        match parseStrBody u.tail with
        | none => none
        | some kp =>
            let u2 := skipWs kp.2
            if u2.head? = some ':' then
              match parseVal fuel u2.tail with
              | none => none
              | some vp =>
                  let u3 := skipWs vp.2
                  if u3.head? = some ',' then
                    match parsePairs fuel u3.tail with
                    | some q => some ((String.mk kp.1, vp.1) :: q.1, q.2)
                    | none => none
                  else if u3.head? = some '\x7d' then
                    some ([(String.mk kp.1, vp.1)], u3.tail)
                  else none
            else none
      else none

end

/-- The model of `JSON.parse`: `none` where `JSON.parse` would throw. -/
def parseJson (s : String) : Option Json :=
  match parseVal (s.toList.length + 1) s.toList with
  | some p => if skipWs p.2 = [] then some p.1 else none
  | none => none

/-- A remainder that cannot extend a rendered number literal: empty or headed
by a non-digit.  Every delimiter the renderer emits after a value qualifies. -/
def tailOk : List Char → Bool
  | [] => true
  | c :: _ => !c.isDigit

/-! ### The upstream surface (the Drive and Sheets calls the server makes) -/

/-- The parameters of a `drive.files.list` call. -/
structure FilesListQuery where
  q : String
  fields : String
  orderBy : Option String := none
  pageSize : Option Nat := none
  supportsAllDrives : Bool := false
  includeItemsFromAllDrives : Bool := false
  corpora : Option String := none

/-- One file's metadata in a listing response; every field is optional because
the `fields` projection decides what the upstream includes. -/
structure DriveFile where
  id : Option String := none
  name : Option String := none
  mimeType : Option String := none
  modifiedTime : Option String := none
  webViewLink : Option String := none
  parents : Option (List String) := none
  trashed : Option Bool := none
  permissions : Option Json := none

/-- A `drive.files.list` response: `files` may be absent. -/
structure FilesListResponse where
  files : Option (List DriveFile) := none

/-- The update summary of the Sheets values API. -/
structure UpdateValuesResponse where
  spreadsheetId : Option String := none
  updatedRange : Option String := none
  updatedRows : Option Nat := none
  updatedColumns : Option Nat := none
  updatedCells : Option Nat := none

/-- A `spreadsheets.values.append` response: the server reads `updates`. -/
structure AppendResponse where
  spreadsheetId : Option String := none
  tableRange : Option String := none
  updates : UpdateValuesResponse := {}

/-- A `spreadsheets.values.get` response: `values` is absent when the range
holds no data. -/
structure ValuesGetResponse where
  range : Option String := none
  majorDimension : Option String := none
  values : Option (List (List Json)) := none

/-- One upstream remote call, with the parameters the server passed. -/
inductive UpstreamCall where
  | filesList (q : FilesListQuery)
  | fileGet (fileId : String) (fields : String)
  | valuesGet (spreadsheetId range : Option String)
  | valuesAppend (spreadsheetId range : Option String)
      (valueInputOption insertDataOption : String) (values : Option Json)
  | valuesUpdate (spreadsheetId range : Option String)
      (valueInputOption : String) (values : Option Json)

/-- The upstream services' behaviour: one function per API call, giving either
the decoded response or the thrown error's message. -/
structure Upstream where
  filesList : FilesListQuery → Except String FilesListResponse
  fileGet : String → String → Except String Json
  valuesGet : Option String → Option String → Except String ValuesGetResponse
  valuesAppend : Option String → Option String → String → String → Option Json →
    Except String AppendResponse
  valuesUpdate : Option String → Option String → String → Option Json →
    Except String UpdateValuesResponse

/-! ### Requests, responses and serialization -/

/-- The request parameters the handlers read (`req.body` / `req.query`):
an absent key is `none`. -/
structure ReqBody where
  spreadsheetId : Option String := none
  range : Option String := none
  values : Option Json := none
  folderId : Option String := none

/-- An HTTP response as the server sends it: status code and JSON body
(`res.send` of a plain string is modelled as a `Json.str` body). -/
structure HttpResponse where
  status : Nat
  body : Json

/-- The uniform error body `{ error: message }` of every failure path. -/
def jsonError (m : String) : Json := Json.obj [("error", Json.str m)]

/-- A field present only when its value is: `res.json` drops keys whose value
is `undefined`. -/
def optField (k : String) (v : Option Json) : List (String × Json) :=
  match v with
  | some j => [(k, j)]
  | none => []

/-- A drive file as `res.json` serializes it. -/
def fileToJson (f : DriveFile) : Json :=
  Json.obj (optField "id" (f.id.map Json.str)
    ++ optField "name" (f.name.map Json.str)
    ++ optField "mimeType" (f.mimeType.map Json.str)
    ++ optField "modifiedTime" (f.modifiedTime.map Json.str)
    ++ optField "webViewLink" (f.webViewLink.map Json.str)
    ++ optField "parents" (f.parents.map (fun l => Json.arr (l.map Json.str)))
    ++ optField "trashed" (f.trashed.map Json.bool)
    ++ optField "permissions" f.permissions)

/-- An update summary as `res.json` serializes it. -/
def uvrToJson (u : UpdateValuesResponse) : Json :=
  Json.obj (optField "spreadsheetId" (u.spreadsheetId.map Json.str)
    ++ optField "updatedRange" (u.updatedRange.map Json.str)
    ++ optField "updatedRows" (u.updatedRows.map (fun n => Json.num (n : Int)))
    ++ optField "updatedColumns" (u.updatedColumns.map (fun n => Json.num (n : Int)))
    ++ optField "updatedCells" (u.updatedCells.map (fun n => Json.num (n : Int))))

/-- A value matrix as `res.json` serializes it. -/
def matrixToJson (rows : List (List Json)) : Json :=
  Json.arr (rows.map Json.arr)

/-! ### The route handlers of src/index.js -/

/-- `GET /` (src/index.js lines 31-33): the liveness probe. -/
def rootHandler : HttpResponse × List UpstreamCall :=
  ({ status := 200, body := Json.str "✅ Google Sheets MCP server is running" }, [])

/-- The query of `GET /list_sheets` (src/index.js lines 39-44). -/
def listSheetsQuery : FilesListQuery :=
  { q := "mimeType='application/vnd.google-apps.spreadsheet' and trashed=false"
    fields := "files(id, name, modifiedTime)"
    orderBy := some "modifiedTime desc"
    pageSize := some 100 }

/-- `GET /list_sheets` (src/index.js lines 36-51). -/
def listSheetsHandler (o : Upstream) : HttpResponse × List UpstreamCall :=
  match o.filesList listSheetsQuery with
  | .ok r =>
      ({ status := 200, body := Json.arr ((r.files.getD []).map fileToJson) },
       [.filesList listSheetsQuery])
  | .error m => ({ status := 500, body := jsonError m }, [.filesList listSheetsQuery])

/-- The hardcoded Revenue Reports folder id (src/index.js line 56). -/
def revenueFolderId : String := "1sw_89iwFMWbBUVvgNvr0HN8li6C1UQY4"

/-- Probe 1: the standard parent query (src/index.js lines 63-67). -/
def revenueQuery1 : FilesListQuery :=
  { q := "'" ++ revenueFolderId ++ "' in parents and trashed=false"
    fields := "files(id, name, mimeType, modifiedTime, webViewLink, parents, permissions)"
    pageSize := some 100 }

/-- Probe 2: shared-drive support (src/index.js lines 78-85). -/
def revenueQuery2 : FilesListQuery :=
  { q := "'" ++ revenueFolderId ++ "' in parents"
    fields := "files(id, name, mimeType, modifiedTime, webViewLink)"
    pageSize := some 100
    supportsAllDrives := true
    includeItemsFromAllDrives := true
    corpora := some "allDrives" }

/-- Probe 3: all spreadsheets, filtered locally by parent (src/index.js 96-100). -/
def revenueQuery3 : FilesListQuery :=
  { q := "mimeType='application/vnd.google-apps.spreadsheet' and trashed=false"
    fields := "files(id, name, parents)"
    pageSize := some 100 }

/-- Probe 4's metadata projection (src/index.js lines 117-120). -/
def revenueMetaFields : String :=
  "id, name, mimeType, permissions, owners, sharingUser, ownedByMe, shared, capabilities"

/-- Probe 5: the parent query without the trashed filter (src/index.js 128-132). -/
def revenueQuery5 : FilesListQuery :=
  { q := "'" ++ revenueFolderId ++ "' in parents"
    fields := "files(id, name, trashed)"
    pageSize := some 100 }

/-- A `{ count, files }` sub-result of the prober (src/index.js lines 68-71). -/
def countFilesJson (files : List DriveFile) : Json :=
  Json.obj [("count", Json.num (files.length : Int)),
    ("files", Json.arr (files.map fileToJson))]

/-- `GET /list_revenue_folder` (src/index.js lines 53-156): five probes, each
inside its own try/catch, aggregated into one `success: true` report. -/
def listRevenueFolderHandler (o : Upstream) : HttpResponse × List UpstreamCall :=
  let r1 := o.filesList revenueQuery1
  let r2 := o.filesList revenueQuery2
  let r3 := o.filesList revenueQuery3
  let r4 := o.fileGet revenueFolderId revenueMetaFields
  let r5 := o.filesList revenueQuery5
  let sub1 := match r1 with
    | .ok r => countFilesJson (r.files.getD [])
    | .error m => jsonError m
  let sub2 := match r2 with
    | .ok r => countFilesJson (r.files.getD [])
    | .error m => jsonError m
  let filtered3 := match r3 with
    | .ok r => (r.files.getD []).filter
        (fun f => (f.parents.getD []).contains revenueFolderId)
    | .error _ => []
  let sub3 := match r3 with
    | .ok _ => countFilesJson filtered3
    | .error m => jsonError m
  let sub4 := match r4 with
    | .ok j => j
    | .error m => jsonError m
  let sub5 := match r5 with
    | .ok r => countFilesJson (r.files.getD [])
    | .error m => jsonError m
  let n1 := match r1 with
    | .ok r => (r.files.getD []).length
    | .error _ => 0
  let n2 := match r2 with
    | .ok r => (r.files.getD []).length
    | .error _ => 0
  let n3 := match r3 with
    | .ok _ => filtered3.length
    | .error _ => 0
  let n5 := match r5 with
    | .ok r => (r.files.getD []).length
    | .error _ => 0
  ({ status := 200
     body := Json.obj
       [("success", Json.bool true),
        ("folderId", Json.str revenueFolderId),
        ("folderName", Json.str "Revenue Reports (Hardcoded)"),
        ("results", Json.obj
          [("standard", sub1),
           ("withSharedDrives", sub2),
           ("spreadsheetsInFolder", sub3),
           ("folderMetadata", sub4),
           ("withoutTrashedFilter", sub5)]),
        ("summary", Json.obj
          [("standardQuery", Json.num (n1 : Int)),
           ("withSharedDrives", Json.num (n2 : Int)),
           ("spreadsheetsFound", Json.num (n3 : Int)),
           ("withoutTrashedFilter", Json.num (n5 : Int))])] },
   [.filesList revenueQuery1, .filesList revenueQuery2, .filesList revenueQuery3,
    .fileGet revenueFolderId revenueMetaFields, .filesList revenueQuery5])

/-- The query of `GET /find_revenue_sheets` (src/index.js lines 165-169). -/
def findRevenueQuery : FilesListQuery :=
  { q := "mimeType='application/vnd.google-apps.spreadsheet' and trashed=false"
    fields := "files(id, name, parents, modifiedTime, webViewLink)"
    pageSize := some 1000 }

/-- `GET /find_revenue_sheets` (src/index.js lines 159-204). -/
def findRevenueSheetsHandler (o : Upstream) : HttpResponse × List UpstreamCall :=
  match o.filesList findRevenueQuery with
  | .error m => ({ status := 500, body := jsonError m }, [.filesList findRevenueQuery])
  | .ok r =>
      let allSheets := r.files.getD []
      let inTarget := allSheets.filter
        (fun f => (f.parents.getD []).contains revenueFolderId)
      let noParents := allSheets.filter (fun f => (f.parents.getD []).isEmpty)
      ({ status := 200
         body := Json.obj
           [("success", Json.bool true),
            ("targetFolderId", Json.str revenueFolderId),
            ("totalAccessibleSheets", Json.num (allSheets.length : Int)),
            ("sheetsInTargetFolder", countFilesJson inTarget),
            ("sheetsWithoutParentInfo", Json.obj
              [("count", Json.num (noParents.length : Int)),
               ("files", Json.arr ((noParents.take 10).map fileToJson))]),
            ("sampleOfAllSheets", Json.arr ((allSheets.take 5).map (fun f =>
              Json.obj (optField "name" (f.name.map Json.str)
                ++ optField "id" (f.id.map Json.str)
                ++ optField "parents"
                    (f.parents.map (fun l => Json.arr (l.map Json.str)))))))] },
       [.filesList findRevenueQuery])

/-- The query of `POST /list_folder` (src/index.js lines 213-217). -/
def listFolderQuery (folderId : String) : FilesListQuery :=
  { q := "'" ++ folderId ++ "' in parents and trashed=false"
    fields := "files(id, name, mimeType, modifiedTime, webViewLink)"
    pageSize := some 100 }

/-- `POST /list_folder` (src/index.js lines 206-227): `!folderId` is true for
an absent and for an empty `folderId`. -/
def listFolderHandler (o : Upstream) (b : ReqBody) : HttpResponse × List UpstreamCall :=
  if b.folderId.getD "" = "" then
    ({ status := 400, body := jsonError "Missing folderId in request body" }, [])
  else
    let fid := b.folderId.getD ""
    match o.filesList (listFolderQuery fid) with
    | .ok r =>
        ({ status := 200
           body := Json.obj
             [("success", Json.bool true),
              ("folderId", Json.str fid),
              ("fileCount", Json.num ((r.files.getD []).length : Int)),
              ("files", Json.arr ((r.files.getD []).map fileToJson))] },
         [.filesList (listFolderQuery fid)])
    | .error m =>
        ({ status := 500, body := jsonError m }, [.filesList (listFolderQuery fid)])

/-- `POST /read_sheet` (src/index.js lines 229-238): no local validation, the
upstream call is made with whatever parameters arrived; a missing value
matrix in the response becomes `[]`. -/
def readSheetHandler (o : Upstream) (b : ReqBody) : HttpResponse × List UpstreamCall :=
  match o.valuesGet b.spreadsheetId b.range with
  | .ok r =>
      ({ status := 200, body := matrixToJson (r.values.getD []) },
       [.valuesGet b.spreadsheetId b.range])
  | .error m =>
      ({ status := 500, body := jsonError m }, [.valuesGet b.spreadsheetId b.range])

/-- `POST /write_sheet` (src/index.js lines 241-256): appends `values` exactly
as received, with no decoding and no validation. -/
def writeSheetHandler (o : Upstream) (b : ReqBody) : HttpResponse × List UpstreamCall :=
  match o.valuesAppend b.spreadsheetId b.range "USER_ENTERED" "INSERT_ROWS" b.values with
  | .ok r =>
      ({ status := 200, body := uvrToJson r.updates },
       [.valuesAppend b.spreadsheetId b.range "USER_ENTERED" "INSERT_ROWS" b.values])
  | .error m =>
      ({ status := 500, body := jsonError m },
       [.valuesAppend b.spreadsheetId b.range "USER_ENTERED" "INSERT_ROWS" b.values])

/-- The update call made with the decoded values (src/index.js lines 274-281). -/
def updateDispatch (o : Upstream) (b : ReqBody) (parsedValues : Option Json) :
    HttpResponse × List UpstreamCall :=
  match o.valuesUpdate b.spreadsheetId b.range "USER_ENTERED" parsedValues with
  | .ok r =>
      ({ status := 200, body := uvrToJson r },
       [.valuesUpdate b.spreadsheetId b.range "USER_ENTERED" parsedValues])
  | .error m =>
      ({ status := 500, body := jsonError m },
       [.valuesUpdate b.spreadsheetId b.range "USER_ENTERED" parsedValues])

/-- `POST /update_sheet` (src/index.js lines 259-285): a string `values` is
decoded with `JSON.parse`; a parse failure is answered with 400 before any
upstream call; any other shape passes through untouched. -/
def updateSheetHandler (o : Upstream) (b : ReqBody) : HttpResponse × List UpstreamCall :=
  match b.values with
  | some (Json.str s) =>
      (match parseJson s with
       | some v => updateDispatch o b (some v)
       | none => ({ status := 400, body := jsonError "Invalid JSON in 'values' field" }, []))
  | other => updateDispatch o b other

/-- The JavaScript `typeof` of an optional JSON value. -/
def typeOf : Option Json → String
  | none => "undefined"
  | some .null => "object"
  | some (.bool _) => "boolean"
  | some (.num _) => "number"
  | some (.str _) => "string"
  | some (.arr _) => "object"
  | some (.obj _) => "object"

/-- The JavaScript `typeof` of an optional string parameter. -/
def typeOfStr : Option String → String
  | none => "undefined"
  | some _ => "string"

/-- JavaScript truthiness of an optional string (absent and empty are falsy). -/
def truthyStr : Option String → Bool
  | none => false
  | some s => !(s = "")

/-- `req.body` as `res.json` echoes it back. -/
def bodyToJson (b : ReqBody) : Json :=
  Json.obj (optField "spreadsheetId" (b.spreadsheetId.map Json.str)
    ++ optField "range" (b.range.map Json.str)
    ++ optField "values" b.values
    ++ optField "folderId" (b.folderId.map Json.str))

/-- Whether `sub` occurs in `s` (the model of `String.includes`). -/
def strIncludes (s sub : String) : Bool := 1 < (s.splitOn sub).length

/-- `POST /test_params` (src/index.js lines 291-315): echoes the request and
issues no upstream call. -/
def testParamsHandler (b : ReqBody) : HttpResponse × List UpstreamCall :=
  let sid := b.spreadsheetId
  ({ status := 200
     body := Json.obj
       [("success", Json.bool true),
        ("message", Json.str "Debug endpoint - showing what was received"),
        ("received_body", bodyToJson b),
        ("spreadsheetId_details", Json.obj
          (optField "value" (sid.map Json.str)
           ++ [("type", Json.str (typeOfStr sid)),
               ("length", Json.num (if truthyStr sid then ((sid.getD "").length : Int) else 0)),
               ("has_quotes", Json.bool (truthyStr sid && strIncludes (sid.getD "") "\"")),
               ("has_spaces", Json.bool (truthyStr sid && strIncludes (sid.getD "") " ")),
               ("has_template",
                 Json.bool (truthyStr sid && strIncludes (sid.getD "") "\x7b\x7b"))])),
        ("range_details", Json.obj
          (optField "value" (b.range.map Json.str)
           ++ [("type", Json.str (typeOfStr b.range))])),
        ("values_details", Json.obj
          (optField "value" b.values
           ++ [("type", Json.str (typeOf b.values))]
           ++ optField "stringified" (b.values.map (fun v => Json.str v.render))))] },
   [])

/-- The routes of the HTTP server (src/index.js, plus the extra listing route
of src/unnamed/part_000). -/
inductive Route where
  | root
  | listSheets
  | listRevenueFolder
  | findRevenueSheets
  | listFolder
  | listFolderFiles
  | readSheet
  | writeSheet
  | updateSheet
  | testParams

/-- The query of `GET /list_folder_files` (src/unnamed/part_000 lines 63-67):
ordered by modified time, no page size. -/
def listFolderFilesQuery (folderId : String) : FilesListQuery :=
  { q := "'" ++ folderId ++ "' in parents and trashed=false"
    fields := "files(id, name, mimeType, modifiedTime)"
    orderBy := some "modifiedTime desc" }

/-- `GET /list_folder_files` (src/unnamed/part_000 lines 53-78).  This variant
reads `response.data.files.length` without a fallback: an upstream response
with no `files` key throws a `TypeError`, caught by the route's try/catch. -/
def listFolderFilesHandler (o : Upstream) (b : ReqBody) :
    HttpResponse × List UpstreamCall :=
  if b.folderId.getD "" = "" then
    ({ status := 400, body := jsonError "Missing folderId query parameter" }, [])
  else
    let fid := b.folderId.getD ""
    match o.filesList (listFolderFilesQuery fid) with
    | .ok r =>
        (match r.files with
         | some l =>
             ({ status := 200
                body := Json.obj
                  [("success", Json.bool true),
                   ("folderId", Json.str fid),
                   ("fileCount", Json.num (l.length : Int)),
                   ("files", Json.arr (l.map fileToJson))] },
              [.filesList (listFolderFilesQuery fid)])
         | none =>
             ({ status := 500,
                body := jsonError "Cannot read properties of undefined (reading 'length')" },
              [.filesList (listFolderFilesQuery fid)]))
    | .error m =>
        ({ status := 500, body := jsonError m }, [.filesList (listFolderFilesQuery fid)])

/-- The server: dispatch a request to its route's handler and produce the
response together with the trace of upstream calls made. -/
def handle (route : Route) (o : Upstream) (b : ReqBody) :
    HttpResponse × List UpstreamCall :=
  match route with
  | .root => rootHandler
  | .listSheets => listSheetsHandler o
  | .listRevenueFolder => listRevenueFolderHandler o
  | .findRevenueSheets => findRevenueSheetsHandler o
  | .listFolder => listFolderHandler o b
  | .listFolderFiles => listFolderFilesHandler o b
  | .readSheet => readSheetHandler o b
  | .writeSheet => writeSheetHandler o b
  | .updateSheet => updateSheetHandler o b
  | .testParams => testParamsHandler b

/-! ### The MCP variant (src/unnamed/part_001) -/

/-- The query of the MCP variant's `listSpreadsheets` tool
(src/unnamed/part_001 lines 38-45): spreadsheet mime type and write access of
the service account; no trashed filter, no ordering, no page size. -/
def mcpListQuery (serviceAccountEmail : String) : FilesListQuery :=
  { q := "mimeType='application/vnd.google-apps.spreadsheet' and '"
      ++ serviceAccountEmail ++ "' in writers"
    fields := "files(id, name)" }

/-- `listSpreadsheets` of src/unnamed/part_001: returns `res.data.files`
unchanged (possibly absent); an error propagates to the MCP framework. -/
def listSpreadsheetsTool (serviceAccountEmail : String) (o : Upstream) :
    Except String (Option (List DriveFile)) × List UpstreamCall :=
  (match o.filesList (mcpListQuery serviceAccountEmail) with
   | .ok r => .ok r.files
   | .error m => .error m,
   [.filesList (mcpListQuery serviceAccountEmail)])

/-- `readSheet` of src/unnamed/part_001 (lines 50-54): returns
`res.data.values` with no fallback, so a range holding no data yields the
absent value (`undefined`), not an empty list; an error propagates to the
MCP framework. -/
def readSheetTool (o : Upstream) (spreadsheetId range : String) :
    Except String (Option (List (List Json))) × List UpstreamCall :=
  (match o.valuesGet (some spreadsheetId) (some range) with
   | .ok r => .ok r.values
   | .error m => .error m,
   [.valuesGet (some spreadsheetId) (some range)])

/-! ### Observations on bodies, for the claims -/

/-- Top-level field lookup in a JSON object body. -/
def getField (j : Json) (k : String) : Option Json :=
  match j with
  | .obj fs => (fs.find? (fun p => p.1 == k)).map (fun p => p.2)
  | _ => none

/-- Whether a JSON body carries a top-level `error` field. -/
def hasErrorField (j : Json) : Bool :=
  match j with
  | .obj fs => fs.any (fun p => p.1 == "error")
  | _ => false

/-- Whether a body is exactly the uniform error shape `{ error: message }`. -/
def isErrorBody (j : Json) : Bool :=
  match j with
  | .obj [("error", Json.str _)] => true
  | _ => false

/-- A scalar cell: neither an array nor an object. -/
def Json.isScalar : Json → Bool
  | .arr _ => false
  | .obj _ => false
  | _ => true

/-- Row length of a JSON row (0 when not an array). -/
def rowLen : Json → Nat
  | .arr cells => cells.length
  | _ => 0

/-- A well-formed value matrix in the sense of the spec: an array of rows,
each row an array of scalar cells, all rows of one length. -/
def isMatrix : Json → Bool
  | .arr rows =>
      rows.all (fun r =>
        match r with
        | .arr cells => cells.all Json.isScalar
        | _ => false)
      && (match rows with
          | [] => true
          | r0 :: _ => rows.all (fun r => rowLen r == rowLen r0))
  | _ => false

/-- A benign upstream: every call succeeds with the most minimal response. -/
def okOracle : Upstream :=
  { filesList := fun _ => .ok { files := some [] }
    fileGet := fun _ _ => .ok (Json.obj [])
    valuesGet := fun _ _ => .ok {}
    valuesAppend := fun _ _ _ _ _ => .ok {}
    valuesUpdate := fun _ _ _ _ => .ok {} }

/-- An unreachable upstream: every call fails with the message `boom`. -/
def downOracle : Upstream :=
  { filesList := fun _ => .error "boom"
    fileGet := fun _ _ => .error "boom"
    valuesGet := fun _ _ => .error "boom"
    valuesAppend := fun _ _ _ _ _ => .error "boom"
    valuesUpdate := fun _ _ _ _ => .error "boom" }

/-- A character that can open a rendered value: not whitespace and not a
closing bracket or brace. -/
def goodHead (c : Char) : Bool := !(isWsChar c) && !(c == ']') && !(c == '\x7d')

/-! ### Codec lemmas: digits -/

theorem mk_toList (s : String) : String.mk s.toList = s := rfl

theorem digitOf_toNat (k : Nat) (h : k < 10) : (digitOf k).toNat = 48 + k := by
  interval_cases k <;> decide

theorem digitOf_isDigit (k : Nat) (h : k < 10) : (digitOf k).isDigit = true := by
  interval_cases k <;> decide

theorem digitOf_ne_zero (k : Nat) (h1 : 1 ≤ k) (h2 : k < 10) : digitOf k ≠ '0' := by
  interval_cases k <;> decide

theorem natChars_ne_nil (n : Nat) : natChars n ≠ [] := by
  rw [natChars]; split <;> simp

theorem natChars_all_digit (n : Nat) : ∀ c ∈ natChars n, c.isDigit = true := by
  induction n using Nat.strongRecOn with
  | _ n ih =>
    rw [natChars]
    split
    · next h =>
      intro c hc
      rw [List.mem_singleton] at hc
      subst hc
      exact digitOf_isDigit n h
    · next h =>
      intro c hc
      rw [List.mem_append] at hc
      rcases hc with hc | hc
      · exact ih (n / 10) (Nat.div_lt_self (by omega) (by omega)) c hc
      · rw [List.mem_singleton] at hc
        subst hc
        exact digitOf_isDigit _ (Nat.mod_lt _ (by omega))

theorem natChars_cons (n : Nat) : ∃ c t, natChars n = c :: t ∧ c.isDigit = true := by
  cases h : natChars n with
  | nil => exact absurd h (natChars_ne_nil n)
  | cons c t =>
    refine ⟨c, t, rfl, natChars_all_digit n c ?_⟩
    rw [h]
    exact List.mem_cons_self ..

theorem natChars_head_ne_zero :
    ∀ n : Nat, 1 ≤ n → ∀ c t, natChars n = c :: t → c ≠ '0' := by
  intro n
  induction n using Nat.strongRecOn with
  | _ n ih =>
    intro hn c t hct
    by_cases h : n < 10
    · rw [natChars, dif_pos h] at hct
      rw [List.cons.injEq] at hct
      rw [← hct.1]
      exact digitOf_ne_zero n hn h
    · rw [natChars, dif_neg h] at hct
      obtain ⟨c', t', h'⟩ : ∃ c' t', natChars (n / 10) = c' :: t' := by
        cases hq : natChars (n / 10) with
        | nil => exact absurd hq (natChars_ne_nil _)
        | cons a b => exact ⟨a, b, rfl⟩
      rw [h', List.cons_append, List.cons.injEq] at hct
      rw [← hct.1]
      exact ih (n / 10) (Nat.div_lt_self (by omega) (by omega)) (by omega) c' t' h'

theorem digitsVal_append_digit (ds : List Char) (c : Char) :
    digitsVal (ds ++ [c]) = digitsVal ds * 10 + (c.toNat - 48) := by
  simp [digitsVal, List.foldl_append]

theorem digitsVal_natChars (n : Nat) : digitsVal (natChars n) = n := by
  induction n using Nat.strongRecOn with
  | _ n ih =>
    by_cases h : n < 10
    · rw [natChars, dif_pos h]
      simp only [digitsVal, List.foldl_cons, List.foldl_nil]
      rw [digitOf_toNat n h]
      omega
    · rw [natChars, dif_neg h, digitsVal_append_digit,
        ih (n / 10) (Nat.div_lt_self (by omega) (by omega)),
        digitOf_toNat _ (Nat.mod_lt _ (by omega))]
      omega

theorem leadingZero_natChars (n : Nat) : leadingZero (natChars n) = false := by
  by_cases h : n < 10
  · rw [natChars, dif_pos h]
    rfl
  · rw [natChars, dif_neg h]
    obtain ⟨c, t, hct⟩ : ∃ c t, natChars (n / 10) = c :: t := by
      cases hq : natChars (n / 10) with
      | nil => exact absurd hq (natChars_ne_nil _)
      | cons a b => exact ⟨a, b, rfl⟩
    have hc : c ≠ '0' := natChars_head_ne_zero (n / 10) (by omega) c t hct
    rw [hct]
    cases t with
    | nil => simp [leadingZero, hc]
    | cons a b => simp [leadingZero, hc]

theorem digitSpan_stop (cs : List Char) (h : tailOk cs = true) : digitSpan cs = ([], cs) := by
  cases cs with
  | nil => rfl
  | cons c t =>
    simp only [tailOk, Bool.not_eq_true'] at h
    simp [digitSpan, h]

theorem digitSpan_run (ds : List Char) (hds : ∀ c ∈ ds, c.isDigit = true)
    (rest : List Char) (hrest : tailOk rest = true) :
    digitSpan (ds ++ rest) = (ds, rest) := by
  induction ds with
  | nil => simpa using digitSpan_stop rest hrest
  | cons c t ih =>
    have hc := hds c (List.mem_cons_self ..)
    have ht := ih (fun x hx => hds x (List.mem_cons_of_mem _ hx))
    simp [digitSpan, hc, ht]

theorem numToken_natChars (n : Nat) (rest : List Char) (hr : tailOk rest = true) :
    numToken (natChars n ++ rest) = some (n, rest) := by
  simp only [numToken]
  rw [digitSpan_run _ (natChars_all_digit n) _ hr]
  simp [natChars_ne_nil n, leadingZero_natChars n, digitsVal_natChars n]

/-! ### Codec lemmas: strings and heads -/

theorem tailOk_cons (c : Char) (t : List Char) (h : c.isDigit = false) :
    tailOk (c :: t) = true := by
  simp [tailOk, h]

theorem parseStrBody_render (l rest : List Char) :
    parseStrBody (strBodyChars l ++ rest) = some (l, rest) := by
  induction l with
  | nil =>
    show parseStrBody (['"'] ++ rest) = some ([], rest)
    rw [List.singleton_append, parseStrBody.eq_def]
    simp
  | cons c t ih =>
    by_cases hc : c = '"' ∨ c = '\\'
    · simp only [strBodyChars, escSeq, if_pos hc, List.cons_append, List.append_assoc]
      rw [parseStrBody.eq_def]
      simp [hc, ih]
    · push_neg at hc
      simp only [strBodyChars, escSeq, if_neg (by tauto : ¬(c = '"' ∨ c = '\\')),
        List.singleton_append, List.cons_append]
      rw [parseStrBody.eq_def]
      simp [hc.1, hc.2, ih]

theorem isDigit_props (c : Char) (h : c.isDigit = true) :
    isWsChar c = false ∧ c ≠ ']' ∧ c ≠ '\x7d' ∧ c ≠ 'n' ∧ c ≠ 't' ∧ c ≠ 'f' ∧ c ≠ '"' ∧
      c ≠ '[' ∧ c ≠ '\x7b' ∧ c ≠ '-' := by
  have hne : ∀ d : Char, d.isDigit = false → c ≠ d := by
    intro d hd he
    rw [he, hd] at h
    exact Bool.false_ne_true h
  refine ⟨?_, hne _ (by decide), hne _ (by decide), hne _ (by decide), hne _ (by decide),
    hne _ (by decide), hne _ (by decide), hne _ (by decide), hne _ (by decide),
    hne _ (by decide)⟩
  simp [isWsChar, hne ' ' (by decide), hne '\n' (by decide), hne '\t' (by decide),
    hne '\r' (by decide)]

theorem skipWs_not_ws (c : Char) (t : List Char) (h : isWsChar c = false) :
    skipWs (c :: t) = c :: t := by
  simp [skipWs, h]

theorem goodHead_spec (c : Char) (h : goodHead c = true) :
    isWsChar c = false ∧ c ≠ ']' ∧ c ≠ '\x7d' := by
  simp only [goodHead, Bool.and_eq_true, Bool.not_eq_true', beq_eq_false_iff_ne] at h
  exact ⟨h.1.1, h.1.2, h.2⟩

theorem goodHead_of_digit (c : Char) (h : c.isDigit = true) : goodHead c = true := by
  obtain ⟨hws, hrb, hob, -⟩ := isDigit_props c h
  simp [goodHead, hws, hrb, hob]

theorem renderChars_head (v : Json) :
    ∃ c t, renderChars v = c :: t ∧ goodHead c = true := by
  cases v with
  | num n =>
    by_cases hn : n < 0
    · refine ⟨'-', natChars n.natAbs, by simp [renderChars, intChars, hn], by decide⟩
    · obtain ⟨c, t, hct, hcd⟩ := natChars_cons n.toNat
      exact ⟨c, t, by simp [renderChars, intChars, hn, hct], goodHead_of_digit c hcd⟩
  | null => exact ⟨_, _, rfl, by decide⟩
  | str s => exact ⟨_, _, rfl, by decide⟩
  | arr l => exact ⟨_, _, rfl, by decide⟩
  | obj l => exact ⟨_, _, rfl, by decide⟩
  | bool x =>
    cases x
    · exact ⟨_, _, rfl, by decide⟩
    · exact ⟨_, _, rfl, by decide⟩

theorem renderItems_cons_ex (x : Json) (xs : List Json) :
    ∃ u, renderItems (x :: xs) = renderChars x ++ u := by
  cases xs with
  | nil => exact ⟨[']'], rfl⟩
  | cons y ys => exact ⟨',' :: renderItems (y :: ys), rfl⟩

theorem renderItems_head (x : Json) (xs : List Json) (rest : List Char) :
    ∃ c t2, renderItems (x :: xs) ++ rest = c :: t2 ∧ isWsChar c = false ∧ c ≠ ']' := by
  obtain ⟨u, hu⟩ := renderItems_cons_ex x xs
  obtain ⟨c, t, hct, hg⟩ := renderChars_head x
  obtain ⟨hws, hrb, -⟩ := goodHead_spec c hg
  exact ⟨c, t ++ u ++ rest, by rw [hu, hct]; simp, hws, hrb⟩

theorem renderPairs_cons_shape (k : String) (v : Json) (ps : List (String × Json)) :
    ∃ t2, renderPairs ((k, v) :: ps) = '"' :: t2 := by
  cases ps with
  | nil => exact ⟨_, rfl⟩
  | cons p ps2 => exact ⟨_, rfl⟩

/-! ### The codec round-trip -/

theorem parseVal_bracket (f : Nat) (X : List Char) (c : Char) (t2 : List Char)
    (hX : X = c :: t2) (hws : isWsChar c = false) (hne : c ≠ ']') :
    parseVal (f + 1) ('[' :: X) =
      (match parseItems f X with
       | some p => some (Json.arr p.1, p.2)
       | none => none) := by
  subst hX
  simp only [parseVal, skipWs_not_ws '[' _ (by decide)]
  rw [skipWs_not_ws c _ hws]
  simp [hne]

theorem parseVal_brace (f : Nat) (X : List Char) (c : Char) (t2 : List Char)
    (hX : X = c :: t2) (hws : isWsChar c = false) (hne : c ≠ '\x7d') :
    parseVal (f + 1) ('\x7b' :: X) =
      (match parsePairs f X with
       | some p => some (Json.obj p.1, p.2)
       | none => none) := by
  subst hX
  simp only [parseVal, skipWs_not_ws '\x7b' _ (by decide)]
  rw [skipWs_not_ws c _ hws]
  simp [hne]

mutual

theorem parseVal_render : ∀ (v : Json) (fuel : Nat) (rest : List Char),
    (renderChars v).length < fuel → tailOk rest = true →
    parseVal fuel (renderChars v ++ rest) = some (v, rest)
  | .null, fuel, rest, hf, _ => by
    cases fuel with
    | zero => exact absurd hf (Nat.not_lt_zero _)
    | succ f =>
      show parseVal (f + 1) (['n', 'u', 'l', 'l'] ++ rest) = some (.null, rest)
      simp [parseVal, skipWs, isWsChar]
  | .bool true, fuel, rest, hf, _ => by
    cases fuel with
    | zero => exact absurd hf (Nat.not_lt_zero _)
    | succ f =>
      show parseVal (f + 1) (['t', 'r', 'u', 'e'] ++ rest) = some (.bool true, rest)
      simp [parseVal, skipWs, isWsChar]
  | .bool false, fuel, rest, hf, _ => by
    cases fuel with
    | zero => exact absurd hf (Nat.not_lt_zero _)
    | succ f =>
      show parseVal (f + 1) (['f', 'a', 'l', 's', 'e'] ++ rest) = some (.bool false, rest)
      simp [parseVal, skipWs, isWsChar]
  | .num n, fuel, rest, hf, hr => by
    cases fuel with
    | zero => exact absurd hf (Nat.not_lt_zero _)
    | succ f =>
      by_cases hn : n < 0
      · have hren : renderChars (.num n) = '-' :: natChars n.natAbs := by
          simp [renderChars, intChars, hn]
        rw [hren, List.cons_append]
        have hnt := numToken_natChars n.natAbs rest hr
        simp only [parseVal, skipWs_not_ws '-' _ (by decide)]
        simp [hnt]
        rw [abs_of_neg hn, neg_neg]
      · obtain ⟨c, t, hct, hcd⟩ := natChars_cons n.toNat
        obtain ⟨hws, hrb, hob, hn', ht', hf', hq', hlb', hocb', hmn'⟩ := isDigit_props c hcd
        have hren : renderChars (.num n) = c :: t := by
          simp [renderChars, intChars, hn, hct]
        rw [hren, List.cons_append]
        have hnt : numToken (c :: (t ++ rest)) = some (n.toNat, rest) := by
          have h0 := numToken_natChars n.toNat rest hr
          rw [hct] at h0
          simpa [List.cons_append] using h0
        simp only [parseVal, skipWs_not_ws c _ hws]
        simp [hn', ht', hf', hq', hlb', hocb', hmn', hcd, hnt]
        omega
  | .str s, fuel, rest, hf, _ => by
    cases fuel with
    | zero => exact absurd hf (Nat.not_lt_zero _)
    | succ f =>
      show parseVal (f + 1) (('"' :: strBodyChars s.toList) ++ rest) = some (.str s, rest)
      rw [List.cons_append]
      simp only [parseVal, skipWs_not_ws '"' _ (by decide)]
      simp [parseStrBody_render, mk_toList]
  | .arr [], fuel, rest, hf, _ => by
    cases fuel with
    | zero => exact absurd hf (Nat.not_lt_zero _)
    | succ f =>
      show parseVal (f + 1) (['[', ']'] ++ rest) = some (.arr [], rest)
      simp [parseVal, skipWs, isWsChar]
  | .arr (x :: xs), fuel, rest, hf, _ => by
    cases fuel with
    | zero => exact absurd hf (Nat.not_lt_zero _)
    | succ f =>
      have hshape : renderChars (.arr (x :: xs)) = '[' :: renderItems (x :: xs) := rfl
      have hitems : (renderItems (x :: xs)).length < f := by
        rw [hshape] at hf
        simp only [List.length_cons] at hf
        omega
      rw [hshape, List.cons_append]
      obtain ⟨c, t2, heq, hws, hne⟩ := renderItems_head x xs rest
      rw [parseVal_bracket f _ c t2 heq hws hne,
        parseItems_render x xs f rest hitems]
  | .obj [], fuel, rest, hf, _ => by
    cases fuel with
    | zero => exact absurd hf (Nat.not_lt_zero _)
    | succ f =>
      show parseVal (f + 1) (['\x7b', '\x7d'] ++ rest) = some (.obj [], rest)
      simp [parseVal, skipWs, isWsChar]
  | .obj ((k, v) :: ps), fuel, rest, hf, _ => by
    cases fuel with
    | zero => exact absurd hf (Nat.not_lt_zero _)
    | succ f =>
      have hshape : renderChars (.obj ((k, v) :: ps)) = '\x7b' :: renderPairs ((k, v) :: ps) := rfl
      have hpairs : (renderPairs ((k, v) :: ps)).length < f := by
        rw [hshape] at hf
        simp only [List.length_cons] at hf
        omega
      rw [hshape, List.cons_append]
      obtain ⟨t2, hsh⟩ := renderPairs_cons_shape k v ps
      rw [parseVal_brace f _ '"' (t2 ++ rest) (by rw [hsh]; simp) (by decide) (by decide),
        parsePairs_render k v ps f rest hpairs]
  termination_by v => sizeOf v

theorem parseItems_render : ∀ (x : Json) (xs : List Json) (fuel : Nat) (rest : List Char),
    (renderItems (x :: xs)).length < fuel →
    parseItems fuel (renderItems (x :: xs) ++ rest) = some (x :: xs, rest)
  | x, [], fuel, rest, hf => by
    cases fuel with
    | zero => exact absurd hf (Nat.not_lt_zero _)
    | succ f =>
      have hsh : renderItems [x] = renderChars x ++ [']'] := rfl
      have hxlen : (renderChars x).length < f := by
        rw [hsh] at hf
        simp only [List.length_append, List.length_singleton] at hf
        omega
      have h1 : renderItems [x] ++ rest = renderChars x ++ (']' :: rest) := by
        rw [hsh]
        simp
      rw [h1]
      simp only [parseItems]
      rw [parseVal_render x f (']' :: rest) hxlen (tailOk_cons ']' rest (by decide))]
      simp [skipWs, isWsChar]
  | x, y :: ys, fuel, rest, hf => by
    cases fuel with
    | zero => exact absurd hf (Nat.not_lt_zero _)
    | succ f =>
      have hsh : renderItems (x :: y :: ys) = renderChars x ++ ',' :: renderItems (y :: ys) := rfl
      have hxlen : (renderChars x).length < f := by
        rw [hsh] at hf
        simp only [List.length_append, List.length_cons] at hf
        omega
      have hylen : (renderItems (y :: ys)).length < f := by
        rw [hsh] at hf
        simp only [List.length_append, List.length_cons] at hf
        omega
      have h1 : renderItems (x :: y :: ys) ++ rest
          = renderChars x ++ (',' :: (renderItems (y :: ys) ++ rest)) := by
        rw [hsh]
        simp
      rw [h1]
      simp only [parseItems]
      rw [parseVal_render x f _ hxlen (tailOk_cons ',' _ (by decide))]
      have hrec := parseItems_render y ys f rest hylen
      simp [skipWs, isWsChar, hrec]
  termination_by x xs => sizeOf x + sizeOf xs

theorem parsePairs_render : ∀ (k : String) (v : Json) (ps : List (String × Json))
    (fuel : Nat) (rest : List Char),
    (renderPairs ((k, v) :: ps)).length < fuel →
    parsePairs fuel (renderPairs ((k, v) :: ps) ++ rest) = some ((k, v) :: ps, rest)
  | k, v, [], fuel, rest, hf => by
    cases fuel with
    | zero => exact absurd hf (Nat.not_lt_zero _)
    | succ f =>
      have hsh : renderPairs [(k, v)]
          = '"' :: strBodyChars k.toList ++ ':' :: renderChars v ++ ['\x7d'] := rfl
      have hvlen : (renderChars v).length < f := by
        rw [hsh] at hf
        simp only [List.length_append, List.length_cons, List.length_singleton] at hf
        omega
      have h1 : renderPairs [(k, v)] ++ rest
          = '"' :: (strBodyChars k.toList ++ (':' :: (renderChars v ++ ('\x7d' :: rest)))) := by
        rw [hsh]
        simp
      rw [h1]
      simp only [parsePairs, skipWs_not_ws '"' _ (by decide)]
      have hv := parseVal_render v f ('\x7d' :: rest) hvlen (tailOk_cons '\x7d' rest (by decide))
      simp [parseStrBody_render, skipWs, isWsChar, hv, mk_toList]
  | k, v, (k2, v2) :: ps2, fuel, rest, hf => by
    cases fuel with
    | zero => exact absurd hf (Nat.not_lt_zero _)
    | succ f =>
      have hsh : renderPairs ((k, v) :: (k2, v2) :: ps2)
          = '"' :: strBodyChars k.toList ++ ':' :: renderChars v ++ ',' :: renderPairs ((k2, v2) :: ps2) := rfl
      have hvlen : (renderChars v).length < f := by
        rw [hsh] at hf
        simp only [List.length_append, List.length_cons] at hf
        omega
      have hplen : (renderPairs ((k2, v2) :: ps2)).length < f := by
        rw [hsh] at hf
        simp only [List.length_append, List.length_cons] at hf
        omega
      have h1 : renderPairs ((k, v) :: (k2, v2) :: ps2) ++ rest
          = '"' :: (strBodyChars k.toList
              ++ (':' :: (renderChars v ++ (',' :: (renderPairs ((k2, v2) :: ps2) ++ rest))))) := by
        rw [hsh]
        simp
      rw [h1]
      simp only [parsePairs, skipWs_not_ws '"' _ (by decide)]
      have hv := parseVal_render v f (',' :: (renderPairs ((k2, v2) :: ps2) ++ rest)) hvlen
        (tailOk_cons ',' _ (by decide))
      have hrec : parsePairs f (renderPairs ((k2, v2) :: ps2) ++ rest)
          = some ((k2, v2) :: ps2, rest) :=
        parsePairs_render k2 v2 ps2 f rest hplen
      simp [parseStrBody_render, skipWs, isWsChar, hv, hrec, mk_toList]
  termination_by _ v ps => sizeOf v + sizeOf ps

end

/-- The round-trip: the model `JSON.parse` inverts the model `JSON.stringify`. -/
theorem parseJson_render (v : Json) : parseJson (Json.render v) = some v := by
  have hlist : (Json.render v).toList = renderChars v := rfl
  simp only [parseJson, hlist]
  have h := parseVal_render v ((renderChars v).length + 1) [] (by omega) (by decide)
  rw [List.append_nil] at h
  rw [h]
  rfl

/-! ### The claims -/

/-- C1: for every well-formed value matrix `M`, an update request whose
`values` parameter is the JSON-encoded string of `M` produces exactly the
same response and the same upstream call payload as the same request carrying
the already-decoded `M` itself: the update operation's encoding tolerance is
transparent. -/
theorem update_encoding_transparent (M : Json) (hM : isMatrix M = true)
    (o : Upstream) (b : ReqBody) :
    updateSheetHandler o { b with values := some (Json.str M.render) }
      = updateSheetHandler o { b with values := some M } := by
  cases M with
  | arr rows =>
    simp only [updateSheetHandler]
    rw [parseJson_render]
    simp [updateDispatch]
  | null => simp [isMatrix] at hM
  | bool x => simp [isMatrix] at hM
  | num x => simp [isMatrix] at hM
  | str x => simp [isMatrix] at hM
  | obj x => simp [isMatrix] at hM

/-- C1 witness: the spec's scenario, `values` as the encoded string of
`[["1","2"]]` against `[["1","2"]]` itself. -/
theorem update_encoding_transparent_witness :
    isMatrix (Json.arr [Json.arr [Json.str "1", Json.str "2"]]) = true ∧
    updateSheetHandler okOracle
        { spreadsheetId := some "S1", range := some "Sheet1!A1:B1",
          values := some (Json.str (Json.render (Json.arr [Json.arr [Json.str "1", Json.str "2"]]))) }
      = updateSheetHandler okOracle
        { spreadsheetId := some "S1", range := some "Sheet1!A1:B1",
          values := some (Json.arr [Json.arr [Json.str "1", Json.str "2"]]) } :=
  ⟨rfl, update_encoding_transparent (Json.arr [Json.arr [Json.str "1", Json.str "2"]])
    rfl okOracle { spreadsheetId := some "S1", range := some "Sheet1!A1:B1" }⟩

/-- C2 counterexample: the claim speaks of every write/update operation, but
the write (append) operation applies no JSON decoding at all: a `values`
string that is not valid JSON is forwarded unchanged inside the upstream
append call, which is issued, and the response is a success, not a 400
`InvalidValuesEncodingError`. -/
theorem write_invalid_string_counterexample :
    parseJson "not json" = none ∧
    writeSheetHandler okOracle
        { spreadsheetId := some "S1", range := some "Sheet1!A1",
          values := some (Json.str "not json") }
      = ({ status := 200, body := uvrToJson {} },
         [UpstreamCall.valuesAppend (some "S1") (some "Sheet1!A1") "USER_ENTERED"
            "INSERT_ROWS" (some (Json.str "not json"))]) :=
  ⟨rfl, rfl⟩

/-- C2 amended: for the update operation, a `values` string that is not valid
JSON is answered with status 400 and the `Invalid JSON in 'values' field`
error body, and no upstream call is issued. -/
theorem update_invalid_string_rejected (s : String) (hs : parseJson s = none)
    (o : Upstream) (b : ReqBody) (hb : b.values = some (Json.str s)) :
    updateSheetHandler o b
      = ({ status := 400, body := jsonError "Invalid JSON in 'values' field" }, []) := by
  simp [updateSheetHandler, hb, hs]

/-- C2 witness: the update operation rejecting the string `not json`. -/
theorem update_invalid_string_rejected_witness :
    parseJson "not json" = none ∧
    updateSheetHandler downOracle { values := some (Json.str "not json") }
      = ({ status := 400, body := jsonError "Invalid JSON in 'values' field" }, []) :=
  ⟨rfl, update_invalid_string_rejected "not json" rfl downOracle
    { values := some (Json.str "not json") } rfl⟩

/-- C3 counterexample: the update operation performs no shape check after
decoding: the string `"42"` decodes to the number 42, which is not an array,
yet the upstream update call is issued with it and the response is a success,
not an `InvalidValuesShapeError`. -/
theorem update_nonarray_counterexample :
    parseJson "42" = some (Json.num 42) ∧
    updateSheetHandler okOracle
        { spreadsheetId := some "S1", range := some "Sheet1!A1",
          values := some (Json.str "42") }
      = ({ status := 200, body := uvrToJson {} },
         [UpstreamCall.valuesUpdate (some "S1") (some "Sheet1!A1") "USER_ENTERED"
            (some (Json.num 42))]) :=
  ⟨rfl, rfl⟩

/-- C3 amended: whenever the `values` string decodes at all, the update
operation forwards the decoded value to the upstream update call whatever its
shape; no local shape validation exists. -/
theorem update_decoded_forwarded (s : String) (v : Json) (hs : parseJson s = some v)
    (o : Upstream) (b : ReqBody) (hb : b.values = some (Json.str s)) :
    updateSheetHandler o b = updateDispatch o b (some v) ∧
    (updateSheetHandler o b).2
      = [UpstreamCall.valuesUpdate b.spreadsheetId b.range "USER_ENTERED" (some v)] := by
  have h1 : updateSheetHandler o b = updateDispatch o b (some v) := by
    simp [updateSheetHandler, hb, hs]
  refine ⟨h1, ?_⟩
  rw [h1]
  simp only [updateDispatch]
  cases o.valuesUpdate b.spreadsheetId b.range "USER_ENTERED" (some v) <;> rfl

/-- C3 witness: the decoded non-array `42` is forwarded upstream. -/
theorem update_decoded_forwarded_witness :
    parseJson "42" = some (Json.num 42) ∧
    updateSheetHandler okOracle { values := some (Json.str "42") }
      = updateDispatch okOracle { values := some (Json.str "42") } (some (Json.num 42)) ∧
    (updateSheetHandler okOracle { values := some (Json.str "42") }).2
      = [UpstreamCall.valuesUpdate none none "USER_ENTERED" (some (Json.num 42))] :=
  ⟨rfl, update_decoded_forwarded "42" (Json.num 42) rfl okOracle
    { values := some (Json.str "42") } rfl⟩

/-- C4 counterexample: a read request with no `spreadsheetId` and no `range`
still issues the upstream values call (and here even succeeds): the sheet
operations perform no local `MissingParameterError` validation. -/
theorem missing_param_counterexample :
    (readSheetHandler okOracle {}).2 = [UpstreamCall.valuesGet none none] ∧
    (readSheetHandler okOracle {}).1.status = 200 :=
  ⟨rfl, rfl⟩

/-- C4 amended: only the folder-listing operations validate their required
`folderId` locally, answering 400 with no remote call; the read and append
operations always issue their upstream call whatever parameters are missing,
the update operation does so as well when `values` is absent, and a missing
parameter surfaces as the upstream failure's 500, not as a client-side
`MissingParameterError`. -/
theorem missing_param_behaviour :
    (∀ (o : Upstream) (b : ReqBody), b.folderId.getD "" = "" →
        listFolderHandler o b
          = ({ status := 400, body := jsonError "Missing folderId in request body" }, []))
    ∧ (∀ (o : Upstream) (b : ReqBody), b.folderId.getD "" = "" →
        listFolderFilesHandler o b
          = ({ status := 400, body := jsonError "Missing folderId query parameter" }, []))
    ∧ (∀ (o : Upstream) (b : ReqBody),
        (readSheetHandler o b).2 = [UpstreamCall.valuesGet b.spreadsheetId b.range])
    ∧ (∀ (o : Upstream) (b : ReqBody),
        (writeSheetHandler o b).2
          = [UpstreamCall.valuesAppend b.spreadsheetId b.range "USER_ENTERED"
              "INSERT_ROWS" b.values])
    ∧ (∀ (o : Upstream) (b : ReqBody), b.values = none →
        (updateSheetHandler o b).2
          = [UpstreamCall.valuesUpdate b.spreadsheetId b.range "USER_ENTERED" none])
    ∧ (∀ (o : Upstream) (b : ReqBody) (m : String),
        o.valuesGet b.spreadsheetId b.range = .error m →
        readSheetHandler o b
          = ({ status := 500, body := jsonError m },
             [UpstreamCall.valuesGet b.spreadsheetId b.range])) := by
  refine ⟨?_, ?_, ?_, ?_, ?_, ?_⟩
  · intro o b hb
    simp [listFolderHandler, hb]
  · intro o b hb
    simp [listFolderFilesHandler, hb]
  · intro o b
    simp only [readSheetHandler]
    cases o.valuesGet b.spreadsheetId b.range <;> rfl
  · intro o b
    simp only [writeSheetHandler]
    cases o.valuesAppend b.spreadsheetId b.range "USER_ENTERED" "INSERT_ROWS" b.values <;> rfl
  · intro o b hb
    simp only [updateSheetHandler, hb, updateDispatch]
    cases o.valuesUpdate b.spreadsheetId b.range "USER_ENTERED" none <;> rfl
  · intro o b m hm
    simp [readSheetHandler, hm]

/-- C4 witness: the folder listings answer 400 without a call on an empty
request; the sheet operations call upstream on an empty request and report
the upstream failure as 500. -/
theorem missing_param_behaviour_witness :
    listFolderHandler downOracle {}
      = ({ status := 400, body := jsonError "Missing folderId in request body" }, []) ∧
    listFolderFilesHandler downOracle {}
      = ({ status := 400, body := jsonError "Missing folderId query parameter" }, []) ∧
    (readSheetHandler downOracle {}).2 = [UpstreamCall.valuesGet none none] ∧
    (writeSheetHandler downOracle {}).2
      = [UpstreamCall.valuesAppend none none "USER_ENTERED" "INSERT_ROWS" none] ∧
    (updateSheetHandler downOracle {}).2
      = [UpstreamCall.valuesUpdate none none "USER_ENTERED" none] ∧
    readSheetHandler downOracle {}
      = ({ status := 500, body := jsonError "boom" }, [UpstreamCall.valuesGet none none]) :=
  ⟨missing_param_behaviour.1 downOracle {} rfl,
   missing_param_behaviour.2.1 downOracle {} rfl,
   missing_param_behaviour.2.2.1 downOracle {},
   missing_param_behaviour.2.2.2.1 downOracle {},
   missing_param_behaviour.2.2.2.2.1 downOracle {} rfl,
   missing_param_behaviour.2.2.2.2.2 downOracle {} "boom" rfl⟩

/-- C5 counterexample: the MCP variant's `readSheet` has no empty-list
fallback: against an upstream whose successful response carries no value
matrix, it returns the absent value, not the empty sequence. -/
theorem read_empty_range_counterexample :
    (readSheetTool okOracle "S1" "Sheet1!A1:B2").1 = .ok none ∧
    (readSheetTool okOracle "S1" "Sheet1!A1:B2").1 ≠ .ok (some []) :=
  ⟨rfl, fun h => by simp [readSheetTool, okOracle] at h⟩

/-- C5 amended: the HTTP read operation maps an upstream success lacking a
value matrix to the empty array in a 200 response; the MCP variant's
`readSheet` instead returns the response's `values` field as received, so a
range with no data yields the absent value rather than an empty sequence
(still without turning into an error). -/
theorem read_empty_range_behaviour :
    (∀ (o : Upstream) (b : ReqBody) (r : ValuesGetResponse),
      o.valuesGet b.spreadsheetId b.range = .ok r → r.values = none →
      readSheetHandler o b
        = ({ status := 200, body := Json.arr [] },
           [UpstreamCall.valuesGet b.spreadsheetId b.range]))
    ∧ (∀ (o : Upstream) (sid rng : String) (r : ValuesGetResponse),
      o.valuesGet (some sid) (some rng) = .ok r →
      (readSheetTool o sid rng).1 = .ok r.values)
    ∧ (∀ (o : Upstream) (sid rng : String),
      (readSheetTool o sid rng).2 = [UpstreamCall.valuesGet (some sid) (some rng)]) := by
  refine ⟨?_, ?_, ?_⟩
  · intro o b r h hr
    simp [readSheetHandler, h, hr, matrixToJson]
  · intro o sid rng r h
    simp [readSheetTool, h]
  · intro o sid rng
    rfl

/-- C5 witness: a concrete empty-range read on each variant. -/
theorem read_empty_range_behaviour_witness :
    readSheetHandler okOracle { spreadsheetId := some "S1", range := some "Sheet1!A1:B2" }
      = ({ status := 200, body := Json.arr [] },
         [UpstreamCall.valuesGet (some "S1") (some "Sheet1!A1:B2")]) ∧
    (readSheetTool okOracle "S1" "Sheet1!A1:B2").1 = .ok none :=
  ⟨read_empty_range_behaviour.1 okOracle
     { spreadsheetId := some "S1", range := some "Sheet1!A1:B2" } {} rfl rfl,
   read_empty_range_behaviour.2.1 okOracle "S1" "Sheet1!A1:B2" {} rfl⟩

/-- An update summary body never carries an `error` key. -/
theorem hasErrorField_uvr (u : UpdateValuesResponse) :
    hasErrorField (uvrToJson u) = false := by
  have h : ∀ (k : String), (k == "error") = false →
      ∀ v : Option Json, (optField k v).any (fun p => p.1 == "error") = false := by
    intro k hk v
    cases v <;> simp [optField, hk]
  simp [uvrToJson, hasErrorField, List.any_append, h "spreadsheetId" (by decide),
    h "updatedRange" (by decide), h "updatedRows" (by decide),
    h "updatedColumns" (by decide), h "updatedCells" (by decide)]

/-- Exclusivity for the dispatched update call's two outcomes. -/
theorem updateDispatch_exclusive (o : Upstream) (b : ReqBody) (pv : Option Json) :
    ((updateDispatch o b pv).1.status < 400 →
      hasErrorField (updateDispatch o b pv).1.body = false)
    ∧ (400 ≤ (updateDispatch o b pv).1.status →
      isErrorBody (updateDispatch o b pv).1.body = true) := by
  simp only [updateDispatch]
  cases o.valuesUpdate b.spreadsheetId b.range "USER_ENTERED" pv with
  | ok r => exact ⟨fun _ => hasErrorField_uvr r, fun h => by simp at h⟩
  | error m => exact ⟨fun h => by simp at h, fun _ => rfl⟩

/-- C6: every response of every route satisfies the exclusivity invariant:
a success (status below 400) has a body with no top-level `error` field, and
every failure's body is exactly the non-empty `{ error: message }` shape, so
it carries a message, never a payload, and is never an empty body. -/
theorem response_exclusivity (route : Route) (o : Upstream) (b : ReqBody) :
    ((handle route o b).1.status < 400 → hasErrorField (handle route o b).1.body = false)
    ∧ (400 ≤ (handle route o b).1.status →
        isErrorBody (handle route o b).1.body = true) := by
  cases route with
  | root => exact ⟨fun _ => rfl, fun h => by simp [handle, rootHandler] at h⟩
  | listSheets =>
    simp only [handle, listSheetsHandler]
    cases o.filesList listSheetsQuery with
    | ok r => exact ⟨fun _ => rfl, fun h => by simp at h⟩
    | error m => exact ⟨fun h => by simp at h, fun _ => rfl⟩
  | listRevenueFolder =>
    exact ⟨fun _ => rfl, fun h => by simp [handle, listRevenueFolderHandler] at h⟩
  | findRevenueSheets =>
    simp only [handle, findRevenueSheetsHandler]
    cases o.filesList findRevenueQuery with
    | ok r => exact ⟨fun _ => rfl, fun h => by simp at h⟩
    | error m => exact ⟨fun h => by simp at h, fun _ => rfl⟩
  | listFolder =>
    simp only [handle, listFolderHandler]
    by_cases hb : b.folderId.getD "" = ""
    · simp only [if_pos hb]
      exact ⟨fun h => by simp at h, fun _ => rfl⟩
    · simp only [if_neg hb]
      cases o.filesList (listFolderQuery (b.folderId.getD "")) with
      | ok r => exact ⟨fun _ => rfl, fun h => by simp at h⟩
      | error m => exact ⟨fun h => by simp at h, fun _ => rfl⟩
  | listFolderFiles =>
    simp only [handle, listFolderFilesHandler]
    by_cases hb : b.folderId.getD "" = ""
    · simp only [if_pos hb]
      exact ⟨fun h => by simp at h, fun _ => rfl⟩
    · simp only [if_neg hb]
      split
      · split
        · exact ⟨fun _ => rfl, fun h => by simp at h⟩
        · exact ⟨fun h => by simp at h, fun _ => rfl⟩
      · exact ⟨fun h => by simp at h, fun _ => rfl⟩
  | readSheet =>
    simp only [handle, readSheetHandler]
    cases o.valuesGet b.spreadsheetId b.range with
    | ok r => exact ⟨fun _ => rfl, fun h => by simp at h⟩
    | error m => exact ⟨fun h => by simp at h, fun _ => rfl⟩
  | writeSheet =>
    simp only [handle, writeSheetHandler]
    cases o.valuesAppend b.spreadsheetId b.range "USER_ENTERED" "INSERT_ROWS" b.values with
    | ok r => exact ⟨fun _ => hasErrorField_uvr r.updates, fun h => by simp at h⟩
    | error m => exact ⟨fun h => by simp at h, fun _ => rfl⟩
  | updateSheet =>
    simp only [handle, updateSheetHandler]
    split
    · split
      · exact updateDispatch_exclusive o b _
      · exact ⟨fun h => by simp at h, fun _ => rfl⟩
    · exact updateDispatch_exclusive o b _
  | testParams => exact ⟨fun _ => rfl, fun h => by simp [handle, testParamsHandler] at h⟩

/-- C6 witness: a succeeding read has no error field; a failing read's body
is exactly the error shape. -/
theorem response_exclusivity_witness :
    hasErrorField (handle Route.readSheet okOracle {}).1.body = false ∧
    isErrorBody (handle Route.readSheet downOracle {}).1.body = true :=
  ⟨(response_exclusivity Route.readSheet okOracle {}).1 (by decide),
   (response_exclusivity Route.readSheet downOracle {}).2 (by decide)⟩

/-- C7 counterexample: the MCP variant's `listSpreadsheets` is a single
file-listing call whose query filters by write access and not by trash state,
with no ordering and no page-size option, contradicting the claim's fixed
options for the list-spreadsheets operation. -/
theorem list_spreadsheets_counterexample :
    (listSpreadsheetsTool "svc@example.com" downOracle).2
      = [UpstreamCall.filesList (mcpListQuery "svc@example.com")] ∧
    (mcpListQuery "svc@example.com").orderBy = none ∧
    (mcpListQuery "svc@example.com").pageSize = none ∧
    (mcpListQuery "svc@example.com").q
      = "mimeType='application/vnd.google-apps.spreadsheet' and 'svc@example.com' in writers" :=
  ⟨rfl, rfl, rfl, by decide⟩

/-- C7 amended: the HTTP `list_sheets` endpoint issues exactly one upstream
file-listing call, filtered to the spreadsheet mime type and to non-trashed
files, ordered by modified time descending with page size 100, and returns
the upstream file list in order; the MCP variant's `listSpreadsheets` issues
exactly one call filtered by mime type and service-account write access with
none of those options, returning the file list unchanged. -/
theorem list_spreadsheets_behaviour :
    (listSheetsQuery.q = "mimeType='application/vnd.google-apps.spreadsheet' and trashed=false"
      ∧ listSheetsQuery.orderBy = some "modifiedTime desc"
      ∧ listSheetsQuery.pageSize = some 100)
    ∧ (∀ o : Upstream, (listSheetsHandler o).2 = [UpstreamCall.filesList listSheetsQuery])
    ∧ (∀ (o : Upstream) (r : FilesListResponse), o.filesList listSheetsQuery = .ok r →
        listSheetsHandler o
          = ({ status := 200, body := Json.arr ((r.files.getD []).map fileToJson) },
             [UpstreamCall.filesList listSheetsQuery]))
    ∧ (∀ e : String, (mcpListQuery e).orderBy = none ∧ (mcpListQuery e).pageSize = none
        ∧ (mcpListQuery e).q = "mimeType='application/vnd.google-apps.spreadsheet' and '"
            ++ e ++ "' in writers")
    ∧ (∀ (e : String) (o : Upstream),
        (listSpreadsheetsTool e o).2 = [UpstreamCall.filesList (mcpListQuery e)])
    ∧ (∀ (e : String) (o : Upstream) (r : FilesListResponse),
        o.filesList (mcpListQuery e) = .ok r →
        (listSpreadsheetsTool e o).1 = .ok r.files) := by
  refine ⟨⟨rfl, rfl, rfl⟩, ?_, ?_, fun e => ⟨rfl, rfl, rfl⟩, fun e o => rfl, ?_⟩
  · intro o
    simp only [listSheetsHandler]
    cases o.filesList listSheetsQuery <;> rfl
  · intro o r h
    simp [listSheetsHandler, h]
  · intro e o r h
    simp [listSpreadsheetsTool, h]

/-- C7 witness: both variants at concrete inputs. -/
theorem list_spreadsheets_behaviour_witness :
    (listSheetsHandler okOracle).2 = [UpstreamCall.filesList listSheetsQuery] ∧
    listSheetsHandler okOracle
      = ({ status := 200, body := Json.arr [] }, [UpstreamCall.filesList listSheetsQuery]) ∧
    (listSpreadsheetsTool "svc@example.com" okOracle).1 = .ok (some []) :=
  ⟨list_spreadsheets_behaviour.2.1 okOracle,
   list_spreadsheets_behaviour.2.2.1 okOracle { files := some [] } rfl,
   list_spreadsheets_behaviour.2.2.2.2.2 "svc@example.com" okOracle { files := some [] } rfl⟩

/-- C8: the diagnostic prober always issues its five probes in their fixed
order, always answers 200 with `success: true`, and a failing probe's error
message is recorded under that probe's own label in `results` without
aborting the others or failing the whole report. -/
theorem prober_aggregates (o : Upstream) :
    (listRevenueFolderHandler o).2
      = [UpstreamCall.filesList revenueQuery1, UpstreamCall.filesList revenueQuery2,
         UpstreamCall.filesList revenueQuery3,
         UpstreamCall.fileGet revenueFolderId revenueMetaFields,
         UpstreamCall.filesList revenueQuery5]
    ∧ (listRevenueFolderHandler o).1.status = 200
    ∧ getField (listRevenueFolderHandler o).1.body "success" = some (Json.bool true)
    ∧ (∀ m, o.filesList revenueQuery1 = .error m →
        ((getField (listRevenueFolderHandler o).1.body "results").bind
          (fun j => getField j "standard")) = some (jsonError m))
    ∧ (∀ m, o.filesList revenueQuery2 = .error m →
        ((getField (listRevenueFolderHandler o).1.body "results").bind
          (fun j => getField j "withSharedDrives")) = some (jsonError m))
    ∧ (∀ m, o.filesList revenueQuery3 = .error m →
        ((getField (listRevenueFolderHandler o).1.body "results").bind
          (fun j => getField j "spreadsheetsInFolder")) = some (jsonError m))
    ∧ (∀ m, o.fileGet revenueFolderId revenueMetaFields = .error m →
        ((getField (listRevenueFolderHandler o).1.body "results").bind
          (fun j => getField j "folderMetadata")) = some (jsonError m))
    ∧ (∀ m, o.filesList revenueQuery5 = .error m →
        ((getField (listRevenueFolderHandler o).1.body "results").bind
          (fun j => getField j "withoutTrashedFilter")) = some (jsonError m)) := by
  refine ⟨rfl, rfl, rfl, ?_, ?_, ?_, ?_, ?_⟩ <;>
    (intro m hm
     simp [listRevenueFolderHandler, hm, getField])

/-- C8 witness: against an unreachable upstream, all five probes' failures
appear under their own labels and the report is still a 200 success. -/
theorem prober_aggregates_witness :
    (listRevenueFolderHandler downOracle).1.status = 200 ∧
    ((getField (listRevenueFolderHandler downOracle).1.body "results").bind
      (fun j => getField j "standard")) = some (jsonError "boom") ∧
    ((getField (listRevenueFolderHandler downOracle).1.body "results").bind
      (fun j => getField j "withSharedDrives")) = some (jsonError "boom") ∧
    ((getField (listRevenueFolderHandler downOracle).1.body "results").bind
      (fun j => getField j "spreadsheetsInFolder")) = some (jsonError "boom") ∧
    ((getField (listRevenueFolderHandler downOracle).1.body "results").bind
      (fun j => getField j "folderMetadata")) = some (jsonError "boom") ∧
    ((getField (listRevenueFolderHandler downOracle).1.body "results").bind
      (fun j => getField j "withoutTrashedFilter")) = some (jsonError "boom") :=
  ⟨(prober_aggregates downOracle).2.1,
   (prober_aggregates downOracle).2.2.2.1 "boom" rfl,
   (prober_aggregates downOracle).2.2.2.2.1 "boom" rfl,
   (prober_aggregates downOracle).2.2.2.2.2.1 "boom" rfl,
   (prober_aggregates downOracle).2.2.2.2.2.2.1 "boom" rfl,
   (prober_aggregates downOracle).2.2.2.2.2.2.2 "boom" rfl⟩

/-- C9: the append (write) operation applies no stringified-values parsing:
a string `values` is forwarded to the upstream append call unchanged, and
no local 400 encoding error can arise. -/
theorem write_forwards_string (o : Upstream) (sid rng fid : Option String) (s : String) :
    writeSheetHandler o
        { spreadsheetId := sid, range := rng,
          values := some (Json.str s), folderId := fid }
      = ((match o.valuesAppend sid rng "USER_ENTERED" "INSERT_ROWS" (some (Json.str s)) with
          | .ok r => ({ status := 200, body := uvrToJson r.updates } : HttpResponse)
          | .error m => { status := 500, body := jsonError m }),
         [UpstreamCall.valuesAppend sid rng "USER_ENTERED" "INSERT_ROWS"
            (some (Json.str s))])
    ∧ (writeSheetHandler o
        { spreadsheetId := sid, range := rng,
          values := some (Json.str s), folderId := fid }).1.status ≠ 400 := by
  constructor
  · simp only [writeSheetHandler]
    cases o.valuesAppend sid rng "USER_ENTERED" "INSERT_ROWS" (some (Json.str s)) <;> rfl
  · simp only [writeSheetHandler]
    cases o.valuesAppend sid rng "USER_ENTERED" "INSERT_ROWS" (some (Json.str s)) <;> simp

/-- C10: in every 200 success of either folder-listing route, the
`fileCount` field equals the length of the `files` array of the same body. -/
theorem folder_listing_count (o : Upstream) (b : ReqBody) :
    ((listFolderHandler o b).1.status = 200 →
      ∃ l : List Json, getField (listFolderHandler o b).1.body "files" = some (Json.arr l)
        ∧ getField (listFolderHandler o b).1.body "fileCount"
            = some (Json.num (l.length : Int)))
    ∧ ((listFolderFilesHandler o b).1.status = 200 →
      ∃ l : List Json,
        getField (listFolderFilesHandler o b).1.body "files" = some (Json.arr l)
        ∧ getField (listFolderFilesHandler o b).1.body "fileCount"
            = some (Json.num (l.length : Int))) := by
  constructor
  · by_cases hb : b.folderId.getD "" = ""
    · intro h
      simp [listFolderHandler, hb] at h
    · simp only [listFolderHandler, if_neg hb]
      split
      next r heq =>
        intro _
        refine ⟨(r.files.getD []).map fileToJson, rfl, ?_⟩
        rw [List.length_map]
        rfl
      next m heq =>
        intro h
        simp at h
  · by_cases hb : b.folderId.getD "" = ""
    · intro h
      simp [listFolderFilesHandler, hb] at h
    · simp only [listFolderFilesHandler, if_neg hb]
      split
      next r heq =>
        split
        next l heq2 =>
          intro _
          refine ⟨l.map fileToJson, rfl, ?_⟩
          rw [List.length_map]
          rfl
        next heq2 =>
          intro h
          simp at h
      next m heq =>
        intro h
        simp at h

/-- C10 witness: both folder listings at a concrete folder. -/
theorem folder_listing_count_witness :
    (∃ l : List Json,
      getField (listFolderHandler okOracle { folderId := some "F1" }).1.body "files"
        = some (Json.arr l)
      ∧ getField (listFolderHandler okOracle { folderId := some "F1" }).1.body "fileCount"
        = some (Json.num (l.length : Int)))
    ∧ (∃ l : List Json,
      getField (listFolderFilesHandler okOracle { folderId := some "F1" }).1.body "files"
        = some (Json.arr l)
      ∧ getField (listFolderFilesHandler okOracle { folderId := some "F1" }).1.body "fileCount"
        = some (Json.num (l.length : Int))) :=
  ⟨(folder_listing_count okOracle { folderId := some "F1" }).1 rfl,
   (folder_listing_count okOracle { folderId := some "F1" }).2 rfl⟩

end SheetsProxy
